import Mathlib

/-!
# Verification of the md-toc core (`md_toc/api.py`)

A shallow embedding of the table-of-contents builder of md-toc: the ATX
heading recognizer (`get_atx_heading`), the anchor slug builder
(`build_anchor_link`), the ordered-list index tracker
(`increase_index_ordered_list`), the TOC line formatter (`build_toc_line`)
and the orchestrator (`build_toc`).

Strings are embedded as `List Char`; Python `dict`s as association lists;
Python exceptions (including the runtime `KeyError` / `UnboundLocalError`
that the source can raise) as an explicit error type threaded through
`Except`.  All loops are embedded as structural recursions (with explicit
fuel where the source loop is index-driven) so that every definition
reduces in the kernel.
-/

set_option maxRecDepth 100000

namespace MdToc

/-- The error outcomes the Python source can produce: the three dedicated
exception classes imported from `md_toc.exceptions`, plus the built-in
runtime errors the code can hit (`KeyError` from indexing a `dict` with a
missing key, `UnboundLocalError` from reading a local variable that no
branch assigned, `AssertionError` from a failed `assert`). -/
inductive PyError where
  | githubEmptyLinkLabel
  | githubOverflowCharsLinkLabel
  | githubOverflowOrderedListMarker
  | keyError (key : Nat)
  | unboundLocalError
  | assertionError
deriving DecidableEq

/-- Association list standing for a Python `dict` with `Nat` values
(`header_duplicate_counter : dict[str, int]` and
`header_type_counter : dict[int, int]`). -/
def lookupA {α : Type} [DecidableEq α] : List (α × Nat) → α → Option Nat
  | [], _ => none
  | (k, v) :: rest, key => if k = key then some v else lookupA rest key

/-- Python `d[k] = v`: replace the binding if the key is present, otherwise
append a fresh binding (insertion order, as in a Python `dict`). -/
def setA {α : Type} [DecidableEq α] : List (α × Nat) → α → Nat → List (α × Nat)
  | [], key, v => [(key, v)]
  | (k, w) :: rest, key, v =>
      if k = key then (k, v) :: rest else (k, w) :: setA rest key v


/-! ## Decimal and hexadecimal rendering

Python `str(n)` and `'{0:x}'.format(n)` for a non-negative int: decimal /
lowercase-hexadecimal digits.  Defined with explicit fuel (one unit per
digit is enough; the fuel `n + 1` is always sufficient) so the definitions
are structural and kernel-reducible. -/

/-- The character for decimal digit `d` (`0 ≤ d ≤ 9`): `'0' + d`. -/
def decDigit (d : Nat) : Char := Char.ofNat (48 + d)

/-- The character for hexadecimal digit `d` (`0 ≤ d ≤ 15`): `0-9a-f`,
lowercase, as produced by Python's `'{0:x}'.format`. -/
def hexDigit (d : Nat) : Char :=
  if d < 10 then Char.ofNat (48 + d) else Char.ofNat (87 + d)

def decDigitsAux : Nat → Nat → List Char
  | 0, _ => []
  | fuel + 1, n =>
      if n < 10 then [decDigit n]
      else decDigitsAux fuel (n / 10) ++ [decDigit (n % 10)]

/-- Python `str(n)` for `n : Nat`: decimal digits, most significant first. -/
def decDigits (n : Nat) : List Char := decDigitsAux (n + 1) n

def hexDigitsAux : Nat → Nat → List Char
  | 0, _ => []
  | fuel + 1, n =>
      if n < 16 then [hexDigit n]
      else hexDigitsAux fuel (n / 16) ++ [hexDigit (n % 16)]

/-- Python `'{0:x}'.format(n)`: lowercase hexadecimal digits. -/
def hexDigits (n : Nat) : List Char := hexDigitsAux (n + 1) n

/-- Reading decimal digits back: fold `acc * 10 + digit`. Used only to
prove that `decDigits` is injective. -/
def decValue (l : List Char) : Nat :=
  l.foldl (fun acc c => 10 * acc + (c.toNat - 48)) 0


/-! ## Anchor slug builder (`build_anchor_link`, api.py lines 291-402) -/

/-- Python `curses.ascii.isascii(c)`: code point below 128. -/
def isAscii (c : Char) : Bool := c.toNat < 128

/-- The fixed strip set of the redcarpet/gitlab scan, api.py line 346:
`STRIPPED = " -&+$,/:;=?@\"#{}|^~[]`\\*()%.!'"`, character by character in
source order (`\x22` quote, `\x7b`/`\x7d` braces, `\x60` backtick,
`\x27` apostrophe). -/
def STRIPPED : List Char :=
  [' ', '-', '&', '+', '$', ',', '/', ':', ';', '=', '?', '@', '\x22', '#',
   '\x7b', '\x7d', '|', '^', '~', '[', ']', '\x60', '\\', '*', '(', ')', '%',
   '.', '!', '\x27']

/-- ASCII word character, the ASCII fragment of the regex class `\w`
(Python 3 `\w` also matches non-ASCII word characters; this embedding
models the ASCII subset, which is all the claims exercise). -/
def isWordChar (c : Char) : Bool := c.isAlphanum || c = '_'

/-- ASCII whitespace, the ASCII fragment of the regex class `\s`. -/
def isSpaceChar (c : Char) : Bool :=
  c = ' ' || c = '\t' || c = '\n' || c = '\x0b' || c = '\x0c' || c = '\r'

/-- The github/cmark candidate slug, api.py lines 325-329: lower-case the
text, delete every character matching `[^\w\s\- ]` (i.e. keep word
characters, whitespace, hyphens and spaces), then replace every space with
a hyphen.  (`str.lower` is modelled on its ASCII fragment, as for `\w`.) -/
def githubSlug (text : List Char) : List Char :=
  (((text.map Char.toLower).filter
      (fun c => isWordChar c || isSpaceChar c || c = '-' || c = ' ')).map
    (fun c => if c = ' ' then '-' else c))

/-- State of the redcarpet/gitlab character scan, api.py lines 348-370:
the output accumulated so far (`header_text_trimmed_middle_stage`), the
`inserted` counter and the `stripped` flag (source uses 0/1 ints). -/
structure RcState where
  out : List Char
  inserted : Nat
  stripped : Bool
deriving DecidableEq

/-- One iteration of the `for i in range(0, header_text_trimmed_len)` scan,
api.py lines 351-370.  The `'<'` and `'&'` branches contain `while` loops
that advance the loop variable `i`, but Python's `for i in range(...)`
rebinds `i` from the range iterator on every iteration, so those inner
loops have no lasting effect: the branch does nothing except skip the
`'<'`/`'&'` character itself. -/
def rcStep (s : RcState) (c : Char) : RcState :=
  if c = '<' then s
  else if c = '&' then s
  else if ¬ isAscii c || c ∈ STRIPPED then
    { s with
      out := if s.inserted ≠ 0 && !s.stripped then s.out ++ ['-'] else s.out,
      stripped := true }
  else { out := s.out ++ [c.toLower], inserted := s.inserted + 1, stripped := false }

/-- The whole scan over the input text. -/
def rcScan (text : List Char) : RcState := text.foldl rcStep ⟨[], 0, false⟩

/-- The DJB2-style rolling hash of api.py lines 377-382:
seed 5381, step `hash = ((hash << 5) + hash) + ord(c)`, over every code
point, in exact unbounded integer arithmetic. -/
def djb2 (text : List Char) : Nat :=
  text.foldl (fun h c => ((h <<< 5) + h) + c.toNat) 5381

/-- Building `'part-' + '{0:x}'.format(hash)`, api.py line 387. -/
def partHex (h : Nat) : List Char := 'p' :: 'a' :: 'r' :: 't' :: '-' :: hexDigits h

/-- The redcarpet/gitlab slug before duplicate handling, api.py lines
346-387: run the scan, drop a trailing separator hyphen (lines 372-374),
and fall back to the `part-<hex>` content hash when no real character was
inserted but the input was non-empty (lines 376-387). -/
def redcarpetSlug (text : List Char) : List Char :=
  let s := rcScan text
  let mid := if s.stripped && s.inserted > 0 then s.out.dropLast else s.out
  if s.inserted = 0 && text.length > 0 then partHex (djb2 text) else mid

/-- The duplicate-counter mapping candidate slugs to counts
(`header_duplicate_counter`). -/
abbrev Counter := List (List Char × Nat)

/-- Duplicate disambiguation, api.py lines 331-341 (github/cmark) and
391-400 (gitlab) — the source repeats the identical block in both
branches, embedded once here: register an unseen candidate at 0; if the
stored count is positive, suffix `-<count>`; finally increment the count
stored under the original (pre-suffix) candidate.  The lookup after the
insert-if-absent always succeeds, so the `getD 0` default is never used. -/
def dedup (cand : List Char) (cnt : Counter) : List Char × Counter :=
  let cnt1 := if lookupA cnt cand = none then setA cnt cand 0 else cnt
  let c := (lookupA cnt1 cand).getD 0
  let result := if c > 0 then cand ++ '-' :: decDigits c else cand
  (result, setA cnt1 cand (c + 1))

/-- Embedding of `build_anchor_link`, api.py lines 291-402.  Returns the anchor (or
`none` when the parser token is unrecognized, as the Python function then
falls off the end and returns `None`) together with the updated duplicate
counter. -/
def buildAnchorLink (prsr : String) (text : List Char) (cnt : Counter) :
    Option (List Char) × Counter :=
  if prsr = "github" || prsr = "cmark" then
    let r := dedup (githubSlug text) cnt
    (some r.1, r.2)
  else if prsr = "gitlab" || prsr = "redcarpet" then
    let slug := redcarpetSlug text
    if prsr = "gitlab" then
      let r := dedup slug cnt
      (some r.1, r.2)
    else (some slug, cnt)
  else (none, cnt)

/-- Running `build_anchor_link` over a sequence of heading texts with one
shared duplicate counter, collecting the returned anchors. -/
def anchorSeqAux (prsr : String) : List (List Char) → Counter → List (Option (List Char))
  | [], _ => []
  | t :: ts, cnt =>
      let r := buildAnchorLink prsr t cnt
      r.1 :: anchorSeqAux prsr ts r.2

/-- Anchors produced for a sequence of heading texts within one build
(fresh duplicate counter). -/
def anchorSeq (prsr : String) (texts : List (List Char)) : List (Option (List Char)) :=
  anchorSeqAux prsr texts []

/-- The candidate slug that feeds the duplicate counter for each of the
three duplicate-tracking parser tokens. -/
def slugOf (prsr : String) (text : List Char) : List Char :=
  if prsr = "github" || prsr = "cmark" then githubSlug text else redcarpetSlug text

/-- The anchor produced for a candidate slug whose stored duplicate count
is `m`: unsuffixed for the first occurrence, `-<m>` suffixed afterwards. -/
def render (cand : List Char) (m : Nat) : List Char :=
  if m = 0 then cand else cand ++ '-' :: decDigits m

/-! ## Heading recognizer (`get_atx_heading`, api.py lines 405-587) -/

/-- Indentation loop, api.py lines 451-455:
`while i < len(line) and line[i] == ' ' and i <= 3: i += 1`, walking the
line from the front while carrying the index `i`. -/
def ghSpacesAux : List Char → Nat → Nat
  | [], i => i
  | c :: rest, i => if c = ' ' && i ≤ 3 then ghSpacesAux rest (i + 1) else i

/-- Marker loop, api.py lines 459-463:
`while i < len(line) and line[i] == '#' and i <= 6 + offset: i += 1`,
walking `line[i:]` while carrying `i`. -/
def ghHashesAux (offset : Nat) : List Char → Nat → Nat
  | [], i => i
  | c :: rest, i => if c = '#' && i ≤ 6 + offset then ghHashesAux offset rest (i + 1) else i

/-- Loop `while i < len(line) and line[i] == p...: i += 1` with no index bound:
the loop leaves `i` just past the maximal run of matching characters. -/
def whileRun (p : Char → Bool) (l : List Char) (i : Nat) : Nat :=
  i + ((l.drop i).takeWhile p).length

/-- Python `str.find`, scanning left to right with an index: the index of
the first occurrence, `none` for absent (Python returns `-1`; the source
only uses the found case). -/
def pyFindAux (c : Char) : List Char → Nat → Option Nat
  | [], _ => none
  | x :: rest, i => if x = c then some i else pyFindAux c rest (i + 1)

def pyFind (c : Char) (l : List Char) : Option Nat := pyFindAux c l 0

/-- The backward closing-sequence scan, api.py lines 483-504, over
`line_prime = line[::-1]`.  State: current index `i`, previous round's
`i_prev`, `hash_char_rounds`, and the candidate `cs_end`; `go_on = False`
is the early return.  The `fuel` is one unit per outer iteration;
`bound + 1` always suffices because `i` strictly increases while the loop
continues.  Indexing past the end of `line_prime` cannot happen: the outer
guard `i < len(line) - cs_start - 1` keeps every inner run (which can only
cross spaces and `'#'`) inside the line, so the `getD`/`whileRun` reading
past the end is never exercised. -/
def ghClosingAux (lp : List Char) (bound : Nat) :
    Nat → Nat → Nat → Nat → Nat → Nat
  | 0, _, _, _, cs_end => cs_end
  | fuel + 1, i, i_prev, rounds, cs_end =>
      if i < bound then
        if (lp.getD i ' ' ≠ ' ' && lp.getD i ' ' ≠ '#') || rounds > 1 then
          if i > i_prev then lp.length - i_prev else lp.length - i
        else
          let iA := whileRun (fun c => c = ' ') lp i
          let iB := whileRun (fun c => c = '#') lp iA
          ghClosingAux lp bound fuel iB iA
            (if iB > iA then rounds + 1 else rounds) cs_end
      else cs_end

/-- The closing-sequence end position `cs_end` for a scan starting at
`cs_start`: loop entry values `i = 0`, `i_prev = 0`, `hash_char_rounds = 0`,
`cs_end = cs_start`. -/
def ghClosing (line : List Char) (cs_start : Nat) : Nat :=
  ghClosingAux line.reverse (line.length - cs_start - 1)
    (line.length - cs_start) 0 0 0 cs_start

/-- Python `s.strip(c)` for a single character: drop leading and trailing
occurrences of `c`. -/
def stripChar (c : Char) (l : List Char) : List Char :=
  (((l.dropWhile (fun x => x = c)).reverse.dropWhile (fun x => x = c)).reverse)

/-- The strip chain of api.py lines 520-522:
`.strip(' ').strip('\u0009').strip('\u000a').strip('\u000b').strip('\u000c').strip('\u000d')`. -/
def stripAll (l : List Char) : List Char :=
  stripChar '\r' (stripChar '\x0c' (stripChar '\x0b'
    (stripChar '\n' (stripChar '\t' (stripChar ' ' l)))))

/-- The run of consecutive `'\\'` characters immediately before position
`i` (api.py lines 530-534: `j = i - 1; while j >= 0 and line[j] == '\\':
count += 1; j -= 1`), i.e. the trailing backslash run of `l.take i`. -/
def trailingBackslashes (l : List Char) (i : Nat) : Nat :=
  (((l.take i).reverse).takeWhile (fun c => c = '\\')).length

/-- The square-bracket escaping loop, api.py lines 526-545: before every
`'['`/`']'` preceded by an even number (possibly zero) of consecutive
backslashes, insert one backslash, then continue after the bracket.  Each
iteration decreases `len(final_line) - i` by exactly one (insertion grows
the line by 1 while `i` advances by 2), so fuel `len + 1 - i` suffices. -/
def escAux : Nat → List Char → Nat → List Char
  | 0, fl, _ => fl
  | fuel + 1, fl, i =>
      match fl.get? i with
      | none => fl
      | some c =>
          if c = '[' || c = ']' then
            let n := trailingBackslashes fl i
            if (n > 0 && n % 2 = 0) || n = 0 then
              escAux fuel (fl.take i ++ '\\' :: fl.drop i) (i + 2)
            else escAux fuel fl (i + 1)
          else escAux fuel fl (i + 1)

def escapeBrackets (fl : List Char) : List Char := escAux (fl.length + 1) fl 0

/-- The link-label checks of api.py lines 520-545, after the conditional
backslash padding: empty label, overflow at 999, bracket escaping. -/
def githubLinkChecks (fl : List Char) : Except PyError (List Char) :=
  if stripAll fl = [] then .error .githubEmptyLinkLabel
  else if fl.length > 999 then .error .githubOverflowCharsLinkLabel
  else .ok (escapeBrackets fl)

/-- api.py lines 517-545 (`if not no_links:` body): if the extracted text
ends with a backslash, append one space (lines 518-519), then run the
label checks. -/
def githubLinkLabel (fl : List Char) : Except PyError (List Char) :=
  githubLinkChecks (if fl.getLast? = some '\\' then fl ++ [' '] else fl)

/-- api.py lines 508-515: clamp `cs_end` at the first line feed and the
first carriage return, then slice `line[cs_start:cs_end]`. -/
def ghText (line : List Char) (i : Nat) : List Char :=
  let cs_start := whileRun (fun c => c = ' ') line i
  let ce0 := ghClosing line cs_start
  let ce1 := match pyFind '\n' line with
    | some p => min ce0 p
    | none => ce0
  let ce2 := match pyFind '\r' line with
    | some p => min ce1 p
    | none => ce1
  (line.take ce2).drop cs_start

/-- api.py lines 470-474: the character right after the marker run must be
a space, line feed or carriage return (or the line must end there); then
skip it and extract the text. -/
def ghNextCharCheck (line : List Char) (cur i2 : Nat) : Option (Nat × List Char) :=
  match line.get? i2 with
  | some c =>
      if c ≠ ' ' && c ≠ '\n' && c ≠ '\r' then none
      else some (cur, ghText line (i2 + 1))
  | none => some (cur, ghText line (i2 + 1))

/-- api.py lines 459-466: count the markers from `offset` and reject on
over-long, over-`keep_header_levels` or empty runs. -/
def ghAfterIndent (k : Nat) (line : List Char) (i1 : Nat) : Option (Nat × List Char) :=
  if i1 > 3 then none
  else
    let i2 := ghHashesAux i1 (line.drop i1) i1
    if i2 - i1 > 6 || i2 - i1 > k || i2 - i1 = 0 then none
    else ghNextCharCheck line (i2 - i1) i2

/-- The github/cmark recognizer up to (but excluding) the link-label
processing: api.py lines 446-515. -/
def githubExtract (k : Nat) (line : List Char) : Option (Nat × List Char) :=
  if line.head? = some '\\' then none
  else ghAfterIndent k line (ghSpacesAux line 0)

/-- api.py lines 552-555: `while i < len(line) and i < 6 and line[i] == '#'`
— the marker count, capped at 6. -/
def rcMarkers (line : List Char) : Nat :=
  min ((line.takeWhile (fun c => c = '#')).length) 6

/-- api.py lines 568-573: strip trailing characters equal to `c` by moving
`end` left (`while end > 0 and line[end - 1] == c: end -= 1`). -/
def rcStripEnd (line : List Char) (c : Char) : Nat → Nat
  | 0 => 0
  | e + 1 => if line.getD e ' ' = c then rcStripEnd line c e else e + 1

/-- api.py lines 561-581: skip spaces, find the line-feed-bounded end,
strip trailing `'#'` then trailing spaces, then slice (with the
backslash-space pad when links are enabled). -/
def rcAfterMarkers (no_links : Bool) (line : List Char) (cur : Nat) :
    Option (Nat × List Char) :=
  let i := whileRun (fun c => c = ' ') line cur
  let e0 := i + ((line.drop i).takeWhile (fun c => c ≠ '\n')).length
  let e1 := rcStripEnd line '#' e0
  let e2 := rcStripEnd line ' ' e1
  if e2 > i then
    if !no_links && line.getLast? = some '\\' then
      some (cur, ((line ++ [' ']).take (e2 + 1)).drop i)
    else some (cur, (line.take e2).drop i)
  else none

/-- The redcarpet/gitlab recognizer, api.py lines 547-581.  Note that the
trailing-backslash test (line 576) looks at the last character of the
*whole line*, before slicing, and that `keep_header_levels` is not
consulted anywhere in this branch. -/
def redcarpetExtract (no_links : Bool) (line : List Char) : Option (Nat × List Char) :=
  if line.head? = some '#' then
    let cur := rcMarkers line
    match line.get? cur with
    | some c =>
        if c ≠ ' ' then none
        else rcAfterMarkers no_links line cur
    | none => rcAfterMarkers no_links line cur
  else none

/-- Embedding of `get_atx_heading`, api.py lines 405-587.  `.ok none` is Python's
`return None`; the final `.error .unboundLocalError` is what the source
does for an unrecognized parser token: it falls through both dialect
branches and executes `return current_headers, final_line` with both
locals unassigned. -/
def getAtxHeading (k : Nat) (prsr : String) (no_links : Bool) (line : List Char) :
    Except PyError (Option (Nat × List Char)) :=
  if k = 0 then .error .assertionError
  else if line = [] then .ok none
  else if prsr = "github" || prsr = "cmark" then
    match githubExtract k line with
    | none => .ok none
    | some (lvl, fl) =>
        if no_links then .ok (some (lvl, fl))
        else
          match githubLinkLabel fl with
          | .error e => .error e
          | .ok fl2 => .ok (some (lvl, fl2))
  else if prsr = "redcarpet" || prsr = "gitlab" then
    .ok (redcarpetExtract no_links line)
  else .error .unboundLocalError

/-! ## Orchestrator (`get_md_header`, `increase_index_ordered_list`,
`build_toc_line`, `build_toc`; api.py lines 115-288 and 590-639) -/

/-- The header record built by `get_md_header` (api.py lines 630-638).
`textAnchorLink` is an `Option` because `build_anchor_link` returns
Python `None` for an unrecognized parser token. -/
structure Header where
  htype : Nat
  textOriginal : List Char
  textAnchorLink : Option (List Char)
deriving DecidableEq

/-- Embedding of `get_md_header`, api.py lines 590-639: recognize the line, then build
the anchor, threading the duplicate counter. -/
def getMdHeader (line : List Char) (dup : Counter) (k : Nat) (prsr : String)
    (no_links : Bool) : Except PyError (Option (Header × Counter)) :=
  match getAtxHeading k prsr no_links line with
  | .error e => .error e
  | .ok none => .ok none
  | .ok (some (t, text)) =>
      let r := buildAnchorLink prsr text dup
      .ok (some (⟨t, text, r.1⟩, r.2))

/-- Embedding of `increase_index_ordered_list`, api.py lines 190-227: assert the
current type is positive (the `header_type_prev` base-case assignment on
lines 218-219 writes a local that is never read again, so it is omitted),
initialize an unseen level at 0, increment, and under github overflow at
999999999. -/
def increaseIndexOrderedList (cnt : List (Nat × Nat)) (header_type_curr : Nat)
    (prsr : String) : Except PyError (List (Nat × Nat)) :=
  if header_type_curr = 0 then .error .assertionError
  else
    let cnt1 := if lookupA cnt header_type_curr = none then
        setA cnt header_type_curr 0 else cnt
    let v := (lookupA cnt1 header_type_curr).getD 0 + 1
    let cnt2 := setA cnt1 header_type_curr v
    if prsr = "github" && v > 999999999 then
      .error .githubOverflowOrderedListMarker
    else .ok cnt2

/-- Embedding of `build_toc_line`, api.py lines 230-288: indentation of
`4 * (type - 1)` spaces, a numbered or dashed list symbol, and the link
(or the raw text with `no_links`).  The two value-carrying asserts of the
source (`header['type'] > 0` and `isinstance(header['text_anchor_link'],
str)`) are kept as `AssertionError` outcomes. -/
def buildTocLine (h : Header) (ordered no_links : Bool) (index : Nat) :
    Except PyError (List Char) :=
  match h.textAnchorLink with
  | none => .error .assertionError
  | some anchor =>
      if h.htype = 0 then .error .assertionError
      else
        let list_symbol := if ordered then decDigits index ++ ['.'] else ['-']
        let indentation := List.replicate (4 * (h.htype - 1)) ' '
        let body := if no_links then h.textOriginal
          else '[' :: h.textOriginal ++ ']' :: '(' :: '#' :: anchor ++ [')']
        .ok (indentation ++ list_symbol ++ ' ' :: body)

/-- The line loop of `build_toc`, api.py lines 169-185, threading the
ordered-list counter, the previous header type, the accumulated TOC and
the duplicate counter.  `f.readline()` returns the empty string exactly at
end of file, so the `while line:` loop also stops at an empty line; and
with `ordered=False` the `header_type_counter` dict is never populated, so
`header_type_counter[header_type_curr]` on line 183 raises `KeyError`. -/
def buildTocAux (ordered no_links : Bool) (k : Nat) (prsr : String) :
    List (List Char) → List (Nat × Nat) → Nat → List Char → Counter →
    Except PyError (List Char)
  | [], _, _, toc, _ => .ok toc
  | line :: rest, htc, prev, toc, dup =>
      if line = [] then .ok toc
      else
        match getMdHeader line dup k prsr no_links with
        | .error e => .error e
        | .ok none => buildTocAux ordered no_links k prsr rest htc prev toc dup
        | .ok (some (h, dup2)) =>
            let cur := h.htype
            let htcE := if ordered then increaseIndexOrderedList htc cur prsr
              else .ok htc
            match htcE with
            | .error e => .error e
            | .ok htc2 =>
                match lookupA htc2 cur with
                | none => .error (.keyError cur)
                | some idx =>
                    match buildTocLine h ordered no_links idx with
                    | .error e => .error e
                    | .ok tl =>
                        buildTocAux ordered no_links k prsr rest htc2 cur
                          (toc ++ tl ++ ['\n']) dup2

/-- Embedding of `build_toc`, api.py lines 115-187, over the document's lines. -/
def buildToc (lines : List (List Char)) (ordered no_links : Bool) (k : Nat)
    (prsr : String) : Except PyError (List Char) :=
  buildTocAux ordered no_links k prsr lines [] 0 [] []

/-- Follows the spec's words, §4.3-§4.5 (a second definition, for
comparison with the source's `build_toc`): for each recognized heading the
orchestrator invokes the Index Tracker (`bump`, returning the current
per-level count), the Slug Builder and the Formatter, and appends the
formatted line plus a separator.  The Formatter (§4.4) uses the index only
when `ordered` is true, so in unordered mode the tracked count is merely
passed along. -/
def buildTocSpecAux (ordered no_links : Bool) (k : Nat) (prsr : String) :
    List (List Char) → List (Nat × Nat) → List Char → Counter →
    Except PyError (List Char)
  | [], _, toc, _ => .ok toc
  | line :: rest, htc, toc, dup =>
      if line = [] then .ok toc
      else
        match getMdHeader line dup k prsr no_links with
        | .error e => .error e
        | .ok none => buildTocSpecAux ordered no_links k prsr rest htc toc dup
        | .ok (some (h, dup2)) =>
            match increaseIndexOrderedList htc h.htype prsr with
            | .error e => .error e
            | .ok htc2 =>
                let idx := (lookupA htc2 h.htype).getD 0
                match buildTocLine h ordered no_links idx with
                | .error e => .error e
                | .ok tl =>
                    buildTocSpecAux ordered no_links k prsr rest htc2
                      (toc ++ tl ++ ['\n']) dup2

/-- The spec's orchestrator (§4.5) over the document's lines. -/
def buildTocSpec (lines : List (List Char)) (ordered no_links : Bool) (k : Nat)
    (prsr : String) : Except PyError (List Char) :=
  buildTocSpecAux ordered no_links k prsr lines [] [] []

instance {ε α : Type} [DecidableEq ε] [DecidableEq α] : DecidableEq (Except ε α)
  | .error a, .error b =>
      if h : a = b then .isTrue (by rw [h])
      else .isFalse (by intro hh; cases hh; exact h rfl)
  | .error _, .ok _ => .isFalse (by intro hh; cases hh)
  | .ok _, .error _ => .isFalse (by intro hh; cases hh)
  | .ok a, .ok b =>
      if h : a = b then .isTrue (by rw [h])
      else .isFalse (by intro hh; cases hh; exact h rfl)

/-- The recurrence stated by the spec's words for the content-hash
fallback, taken literally: `hash = hash*33 + hash + code_point`, seed
5381 (for comparison with the source's `djb2`). -/
def djb2Claim (text : List Char) : Nat :=
  text.foldl (fun h c => h * 33 + h + c.toNat) 5381

/-- The five-line document of the end-to-end scenario (spec §8). -/
def docC1 : List (List Char) :=
  ["## Hi\n".data, "hey\n".data, "### How are you?           !!!\n".data,
   "fine, thanks\n".data, "# Bye\n".data]

/-- A heading line whose trimmed text is exactly 999 characters and ends
in a backslash: `"# "` then 998 `'a'`s, a backslash and a newline. -/
def lineC9 : List Char :=
  '#' :: ' ' :: (List.replicate 998 'a' ++ ['\\', '\n'])

/-- One heading text occurrence matching a candidate slug under a parser
token: the number of texts in `l` whose candidate is `c`. -/
def occCount (prsr : String) (l : List (List Char)) (c : List Char) : Nat :=
  (l.filter (fun t => slugOf prsr t = c)).length

/-! ## Theorems for the claims -/

theorem lookupA_setA_self {α : Type} [DecidableEq α]
    (m : List (α × Nat)) (k : α) (v : Nat) : lookupA (setA m k v) k = some v := by
  induction m with
  | nil => simp [setA, lookupA]
  | cons kv rest ih =>
      obtain ⟨k0, w⟩ := kv
      by_cases h : k0 = k <;> simp [setA, lookupA, h, ih]

theorem lookupA_setA_other {α : Type} [DecidableEq α]
    (m : List (α × Nat)) (k k' : α) (v : Nat) (h : k' ≠ k) :
    lookupA (setA m k v) k' = lookupA m k' := by
  have h' : ¬ k = k' := fun hh => h hh.symm
  induction m with
  | nil => simp [setA, lookupA, h']
  | cons kv rest ih =>
      obtain ⟨k0, w⟩ := kv
      by_cases h0 : k0 = k
      · subst h0
        simp [setA, lookupA, h']
      · by_cases h1 : k0 = k' <;> simp [setA, lookupA, h0, h1, h, h', ih]

theorem decValue_append_digit (l : List Char) (c : Char) :
    decValue (l ++ [c]) = 10 * decValue l + (c.toNat - 48) := by
  simp [decValue, List.foldl_append]

theorem toNat_decDigit (d : Nat) (h : d < 10) : (decDigit d).toNat = 48 + d := by
  interval_cases d <;> decide

theorem decValue_decDigitsAux (fuel n : Nat) (h : n < fuel) :
    decValue (decDigitsAux fuel n) = n := by
  induction fuel generalizing n with
  | zero => omega
  | succ fuel ih =>
      by_cases hn : n < 10
      · simp [decDigitsAux, hn, decValue, List.foldl, toNat_decDigit n hn]
      · have hdiv : n / 10 < fuel := by omega
        have hmod : n % 10 < 10 := Nat.mod_lt _ (by omega)
        simp only [decDigitsAux, hn, if_false, decValue_append_digit, ih _ hdiv,
          toNat_decDigit _ hmod]
        omega

theorem decDigits_injective (m n : Nat) (h : decDigits m = decDigits n) : m = n := by
  have hm := decValue_decDigitsAux (m + 1) m (Nat.lt_succ_self m)
  have hn := decValue_decDigitsAux (n + 1) n (Nat.lt_succ_self n)
  rw [← hm, ← hn]
  simp [decDigits] at h
  rw [h]


/-- Claim C1 (code bug): on the five-line example document with
parser `gitlab`, `ordered=false`, `no_links=false`, `keep_header_levels=3`,
the source's `build_toc` raises `KeyError(2)` on the very first heading —
`header_type_counter` is only ever populated when `ordered` is true, yet
line 183 always indexes it — instead of returning the claimed TOC string.
The spec's own orchestrator (§4.5) on the same document does return
exactly the claimed string, so the claim describes the intent and the code
is wrong. -/
theorem C1_code_eval :
    buildToc docC1 false false 3 "gitlab" = .error (.keyError 2) ∧
    buildTocSpec docC1 false false 3 "gitlab" =
      .ok ("    - [Hi](#hi)\n        - [How are you?           !!!](#how-are-you)\n- [Bye](#bye)\n".data) := by
  constructor
  · decide
  · decide

/-- Claim C2 (code bug): the gitlab/redcarpet branch of `get_atx_heading`
never consults `keep_header_levels`, so with `keep_header_levels = 3` the
line `"#### x\n"` is emitted as a level-4 heading, violating the claimed
invariant `level ∈ [1, keep_header_levels]`. -/
theorem C2_code_eval :
    getAtxHeading 3 "gitlab" false ("#### x\n".data) = .ok (some (4, "x".data)) ∧
    3 < 4 := by
  constructor
  · decide
  · decide

/-- Claim C4 (code bug): the `'<'`/`'&'` skip loops of the
redcarpet/gitlab scan reassign the `for`-loop variable, which Python
rebinds on the next iteration, so the spans are not skipped wholesale:
for `"a<b>c"` the character `'b'` strictly inside `<...>` is emitted (and
so is `'>'`), giving `"ab>c"` instead of `"ac"`; for `"a&b;c"` the inner
`'b'` is emitted and the closing `';'` acts as a separator, giving
`"ab-c"` instead of `"ac"`. -/
theorem C4_code_eval :
    buildAnchorLink "redcarpet" ("a<b>c".data) [] = (some ("ab>c".data), []) ∧
    buildAnchorLink "redcarpet" ("a&b;c".data) [] = (some ("ab-c".data), []) := by
  constructor
  · decide
  · decide

/-- Claim C5 counterexample: with the unrecognized dialect token `"foo"`
no invalid-configuration failure happens before scanning — an empty
document builds successfully to the empty TOC, and a non-empty document
fails only while its first line is examined, with `UnboundLocalError`
(a mid-scan runtime error, not a configuration error). -/
theorem C5_counterexample :
    buildToc [] false false 3 "foo" = .ok [] ∧
    buildToc ["# Hi\n".data] false false 3 "foo" = .error .unboundLocalError := by
  constructor
  · decide
  · decide

/-- Claim C5 as amended: for every dialect token other than the four
recognized ones, a build over an empty document returns the empty TOC
without any error, and a build over a non-empty document raises
`UnboundLocalError` while examining the first line (`get_atx_heading`
falls through both dialect branches and executes its final `return` with
unassigned locals). -/
theorem C5_amended (prsr : String)
    (h : ¬ (prsr = "github" ∨ prsr = "cmark" ∨ prsr = "gitlab" ∨ prsr = "redcarpet"))
    (ordered no_links : Bool) (k : Nat) (hk : 0 < k) :
    buildToc [] ordered no_links k prsr = .ok [] ∧
    ∀ l ls, l ≠ [] →
      buildToc (l :: ls) ordered no_links k prsr = .error .unboundLocalError := by
  push_neg at h
  obtain ⟨h1, h2, h3, h4⟩ := h
  constructor
  · rfl
  · intro l ls hl
    have hk0 : ¬ k = 0 := by omega
    simp [buildToc, buildTocAux, hl, getMdHeader, getAtxHeading, hk0, h1, h2, h3, h4]

/-- Claim C5 amended, witness: concrete instance at dialect token
`"foo"` and the one-line document `"# Hi\n"`. -/
theorem C5_witness :
    buildToc ["# Hi\n".data] false false 3 "foo" = .error .unboundLocalError :=
  (C5_amended "foo" (by decide) false false 3 (by decide)).2 ("# Hi\n".data) [] (by decide)

/-- Claim C8 counterexample: taking the spec's recurrence
`hash = hash*33 + hash + code_point` literally, the anchor the code
computes for the all-strip-set input `"!!!"` under the redcarpet dialect
is not `part-` followed by the hex rendering of that hash (the code's
step is `((hash << 5) + hash) + code_point`, i.e. `hash*33 + code_point`,
not `hash*34 + code_point`). -/
theorem C8_counterexample :
    buildAnchorLink "redcarpet" ("!!!".data) [] ≠
      (some (partHex (djb2Claim ("!!!".data))), []) := by
  decide

/-- Claim C8 as amended: under the redcarpet dialect, for every non-empty
input in which the scan inserts zero real characters, `build_anchor_link`
returns `part-` followed by the lowercase hexadecimal rendering of the
rolling hash with seed 5381 and recurrence
`hash = (hash << 5) + hash + code_point` (that is, `hash*33 + code_point`)
over every code point of the input, in exact unbounded arithmetic. -/
theorem C8_amended (text : List Char) (cnt : Counter)
    (h0 : (rcScan text).inserted = 0) (hne : text ≠ []) :
    redcarpetSlug text = partHex (djb2 text) ∧
    buildAnchorLink "redcarpet" text cnt = (some (partHex (djb2 text)), cnt) := by
  have hbr : buildAnchorLink "redcarpet" text cnt = (some (redcarpetSlug text), cnt) := rfl
  have hlen : 0 < text.length := List.length_pos.mpr hne
  have hslug : redcarpetSlug text = partHex (djb2 text) := by
    unfold redcarpetSlug
    simp [h0, hlen]
  exact ⟨hslug, by rw [hbr, hslug]⟩

/-- Claim C8 amended, witness: the input `"!!!"` inserts zero characters
and hashes to `part-b8743a8`. -/
theorem C8_witness :
    redcarpetSlug ("!!!".data) = partHex (djb2 ("!!!".data)) ∧
    buildAnchorLink "redcarpet" ("!!!".data) [] =
      (some (partHex (djb2 ("!!!".data))), []) :=
  C8_amended ("!!!".data) [] (by decide) (by decide)

/-- Claim C10: in the github/cmark branch with links enabled, a final
text ending in a backslash gets one space appended before the emptiness
and length checks run (so the label checks see `fl ++ [' ']`), and in
particular the single-backslash heading `"# \\\n"` does not raise
`EmptyLinkLabel`: it returns level 1 with text backslash-then-space. -/
theorem C10_backslash_pad :
    (∀ fl : List Char, fl.getLast? = some '\\' →
      githubLinkLabel fl = githubLinkChecks (fl ++ [' '])) ∧
    getAtxHeading 3 "github" false ("# \\\n".data) = .ok (some (1, "\\ ".data)) := by
  constructor
  · intro fl h
    simp [githubLinkLabel, h]
  · decide

/-- Claim C10, witness: the padding equation applied at the
single-backslash label. -/
theorem C10_witness :
    githubLinkLabel ['\\'] = githubLinkChecks ['\\', ' '] :=
  C10_backslash_pad.1 ['\\'] (by decide)

/-- Branch selection of `get_atx_heading` for the github token: once the
assert and the empty-line check pass, the result is the extraction
followed by the link-label processing. -/
theorem getAtx_github_eq (k : Nat) (nl : Bool) (line : List Char)
    (hk : ¬ k = 0) (hline : ¬ line = []) :
    getAtxHeading k "github" nl line =
      match githubExtract k line with
      | none => .ok none
      | some (lvl, fl) =>
          if nl then .ok (some (lvl, fl))
          else
            match githubLinkLabel fl with
            | .error e => .error e
            | .ok fl2 => .ok (some (lvl, fl2)) := by
  unfold getAtxHeading
  rw [if_neg hk, if_neg hline]
  rfl

/-- Evaluation of the github branch on a recognized heading with links
enabled: the extraction result is piped through the link-label
processing. -/
theorem getAtx_github_some (k : Nat) (line : List Char) (lvl : Nat)
    (fl : List Char) (hk : ¬ k = 0) (hline : ¬ line = [])
    (hx : githubExtract k line = some (lvl, fl)) :
    getAtxHeading k "github" false line =
      match githubLinkLabel fl with
      | .error e => .error e
      | .ok fl2 => .ok (some (lvl, fl2)) := by
  rw [getAtx_github_eq k false line hk hline, hx]
  simp


set_option maxHeartbeats 4000000 in
/-- Claim C9 counterexample: the trimmed text of `lineC9` is 999
characters long (not more than 999), yet `get_atx_heading` raises
`OverflowLinkLabel` on it — the backslash padding pushes the label to
1000 characters before the length check. -/
theorem C9_counterexample :
    (githubExtract 3 lineC9).map (fun r => r.2.length) = some 999 ∧
    getAtxHeading 3 "github" false lineC9 = .error .githubOverflowCharsLinkLabel := by
  constructor
  · decide
  · decide

/-- Claim C9 as amended: under the github/cmark dialect with links
enabled, a recognized heading raises `OverflowLinkLabel` if and only if
its trimmed text, after the conditional backslash space-padding, is not
whitespace-blank and exceeds 999 characters; in particular a 999-character
trimmed text ending in a backslash also raises it. -/
theorem C9_amended (k : Nat) (line : List Char) (lvl : Nat) (fl : List Char)
    (hk : 0 < k) (hx : githubExtract k line = some (lvl, fl)) :
    getAtxHeading k "github" false line = .error .githubOverflowCharsLinkLabel ↔
      (stripAll (if fl.getLast? = some '\\' then fl ++ [' '] else fl) ≠ [] ∧
        999 < (if fl.getLast? = some '\\' then fl ++ [' '] else fl).length) := by
  have hk0 : ¬ k = 0 := by omega
  have hnil : githubExtract k [] = none := by
    simp [githubExtract, ghAfterIndent, ghSpacesAux, ghHashesAux]
  have hline : ¬ line = [] := by
    intro he
    rw [he, hnil] at hx
    exact Option.noConfusion hx
  rw [getAtx_github_some k line lvl fl hk0 hline hx]
  by_cases hs : stripAll (if fl.getLast? = some '\\' then fl ++ [' '] else fl) = []
  · have hll : githubLinkLabel fl = .error .githubEmptyLinkLabel := by
      simp [githubLinkLabel, githubLinkChecks, hs]
    rw [hll]
    simp [hs]
  · by_cases hlen : 999 < (if fl.getLast? = some '\\' then fl ++ [' '] else fl).length
    · have hll : githubLinkLabel fl = .error .githubOverflowCharsLinkLabel := by
        simp [githubLinkLabel, githubLinkChecks, hs, hlen]
      rw [hll]
      simp [hs, hlen]
    · have hll : githubLinkLabel fl =
          .ok (escapeBrackets (if fl.getLast? = some '\\' then fl ++ [' '] else fl)) := by
        simp [githubLinkLabel, githubLinkChecks, hs, hlen]
      rw [hll]
      simp [hs, hlen]


theorem decDigits_ne_nil (n : Nat) : decDigits n ≠ [] := by
  unfold decDigits decDigitsAux
  by_cases h : n < 10 <;> simp [h]

theorem render_injective_on_count (c : List Char) (m m' : Nat) (h : m ≠ m') :
    render c m ≠ render c m' := by
  have hlen : ∀ x : Nat,
      (c ++ '-' :: decDigits x).length = c.length + (decDigits x).length + 1 := by
    intro x
    rw [List.length_append, List.length_cons]
    omega
  have hpos : ∀ x : Nat, 0 < (decDigits x).length :=
    fun x => List.length_pos.mpr (decDigits_ne_nil x)
  unfold render
  by_cases hm : m = 0
  · by_cases hm' : m' = 0
    · omega
    · rw [if_pos hm, if_neg hm']
      intro he
      have hc := congrArg List.length he
      rw [hlen m'] at hc
      have := hpos m'
      omega
  · by_cases hm' : m' = 0
    · rw [if_neg hm, if_pos hm']
      intro he
      have hc := congrArg List.length he
      rw [hlen m] at hc
      have := hpos m
      omega
    · rw [if_neg hm, if_neg hm']
      intro he
      have h1 : '-' :: decDigits m = '-' :: decDigits m' :=
        List.append_cancel_left he
      have h2 : decDigits m = decDigits m' := by injection h1
      exact h (decDigits_injective m m' h2)

theorem lookupA_ensure_self (cand : List Char) (cnt : Counter) (f : List Char → Nat)
    (hInv : ∀ c, (lookupA cnt c).getD 0 = f c) :
    lookupA (if lookupA cnt cand = none then setA cnt cand 0 else cnt) cand =
      some (f cand) := by
  rcases h : lookupA cnt cand with _ | v
  · have hf : f cand = 0 := by rw [← hInv cand, h]; rfl
    rw [if_pos rfl, lookupA_setA_self, hf]
  · have hf : f cand = v := by rw [← hInv cand, h]; rfl
    rw [if_neg (fun hh => Option.noConfusion hh), h, hf]

theorem lookupA_ensure_other (cand : List Char) (cnt : Counter) (d : List Char)
    (hd : d ≠ cand) :
    lookupA (if lookupA cnt cand = none then setA cnt cand 0 else cnt) d =
      lookupA cnt d := by
  rcases h : lookupA cnt cand with _ | v
  · rw [if_pos rfl, lookupA_setA_other _ _ _ _ hd]
  · rw [if_neg (fun hh => Option.noConfusion hh)]

theorem dedup_fst (cand : List Char) (cnt : Counter) (f : List Char → Nat)
    (hInv : ∀ c, (lookupA cnt c).getD 0 = f c) :
    (dedup cand cnt).1 = render cand (f cand) := by
  have hself := lookupA_ensure_self cand cnt f hInv
  simp only [dedup, hself, Option.getD_some]
  unfold render
  by_cases hz : f cand = 0
  · rw [if_neg (by omega : ¬ f cand > 0), if_pos hz]
  · rw [if_pos (by omega : f cand > 0), if_neg hz]

theorem dedup_snd (cand : List Char) (cnt : Counter) (f : List Char → Nat)
    (hInv : ∀ c, (lookupA cnt c).getD 0 = f c) :
    ∀ c, (lookupA (dedup cand cnt).2 c).getD 0 =
      if c = cand then f cand + 1 else f c := by
  intro c
  have hself := lookupA_ensure_self cand cnt f hInv
  simp only [dedup, hself, Option.getD_some]
  by_cases hc : c = cand
  · subst hc
    rw [lookupA_setA_self, if_pos rfl]
    rfl
  · rw [lookupA_setA_other _ _ _ _ hc, lookupA_ensure_other cand cnt c hc,
      if_neg hc, hInv c]

/-- Branch selection of `build_anchor_link` for the three
duplicate-tracking parser tokens: compute the dialect's candidate slug and
disambiguate it against the shared counter. -/
theorem buildAnchorLink_dedup (prsr : String)
    (hp : prsr = "github" ∨ prsr = "cmark" ∨ prsr = "gitlab")
    (t : List Char) (cnt : Counter) :
    buildAnchorLink prsr t cnt =
      (some (dedup (slugOf prsr t) cnt).1, (dedup (slugOf prsr t) cnt).2) := by
  rcases hp with h | h | h <;> subst h <;> rfl

theorem anchorSeqAux_length (prsr : String) (texts : List (List Char)) (cnt : Counter) :
    (anchorSeqAux prsr texts cnt).length = texts.length := by
  induction texts generalizing cnt with
  | nil => rfl
  | cons t ts ih => simp [anchorSeqAux, ih]

/-- The anchor emitted at position `n` of a run of `build_anchor_link`
calls sharing one duplicate counter: the candidate of the text at `n`,
suffixed with the number of its previous occurrences plus what the counter
already stored. -/
theorem anchorSeqAux_get (prsr : String)
    (hp : prsr = "github" ∨ prsr = "cmark" ∨ prsr = "gitlab") :
    ∀ (texts : List (List Char)) (cnt : Counter) (f : List Char → Nat),
      (∀ c, (lookupA cnt c).getD 0 = f c) →
      ∀ (n : Nat) (t : List Char), texts.get? n = some t →
        (anchorSeqAux prsr texts cnt).get? n =
          some (some (render (slugOf prsr t)
            (f (slugOf prsr t) + occCount prsr (texts.take n) (slugOf prsr t)))) := by
  intro texts
  induction texts with
  | nil =>
      intro cnt f hInv n t ht
      exact absurd ht (by simp)
  | cons t0 ts ih =>
      intro cnt f hInv n t ht
      have hstep := buildAnchorLink_dedup prsr hp t0 cnt
      match n with
      | 0 =>
          have ht0 : t0 = t := by
            simpa using ht
          simp only [anchorSeqAux, hstep, List.get?_cons_zero, List.take_zero,
            occCount, List.filter_nil, List.length_nil, Nat.add_zero]
          rw [ht0, dedup_fst (slugOf prsr t) cnt f hInv]
      | n + 1 =>
          have ht' : ts.get? n = some t := by simpa using ht
          have ih' := ih (dedup (slugOf prsr t0) cnt).2
            (fun c => if c = slugOf prsr t0 then f (slugOf prsr t0) + 1 else f c)
            (dedup_snd (slugOf prsr t0) cnt f hInv) n t ht'
          simp only [anchorSeqAux, hstep, List.get?_cons_succ]
          rw [ih']
          have harith :
              (if slugOf prsr t = slugOf prsr t0 then f (slugOf prsr t0) + 1
                else f (slugOf prsr t)) +
                occCount prsr (ts.take n) (slugOf prsr t) =
              f (slugOf prsr t) +
                occCount prsr ((t0 :: ts).take (n + 1)) (slugOf prsr t) := by
            simp only [List.take_succ_cons, occCount, List.filter]
            by_cases he : slugOf prsr t0 = slugOf prsr t
            · rw [if_pos (he.symm), show (decide (slugOf prsr t0 = slugOf prsr t)) = true
                from decide_eq_true he]
              simp [he]
              omega
            · rw [if_neg (fun hh => he hh.symm), show (decide (slugOf prsr t0 = slugOf prsr t)) = false
                from decide_eq_false he]
          rw [harith]

theorem occCount_take_lt (prsr : String) (texts : List (List Char)) (i j : Nat)
    (hij : i < j) (ti : List Char) (hti : texts.get? i = some ti)
    (c : List Char) (hc : slugOf prsr ti = c) :
    occCount prsr (texts.take i) c < occCount prsr (texts.take j) c := by
  obtain ⟨hlt, hget⟩ := List.get?_eq_some.mp hti
  have hsplit : texts.take j = texts.take i ++ (texts.drop i).take (j - i) := by
    rw [show j = i + (j - i) from by omega, List.take_add]
    rw [show i + (j - i) - i = j - i from by omega]
  have hdrop : texts.drop i = ti :: texts.drop (i + 1) := by
    rw [List.drop_eq_getElem_cons hlt]
    rw [← hget]
    rfl
  obtain ⟨d, hd⟩ : ∃ d, j - i = d + 1 := ⟨j - i - 1, by omega⟩
  have htake : (texts.drop i).take (j - i) = ti :: (texts.drop (i + 1)).take d := by
    rw [hdrop, hd, List.take_succ_cons]
  rw [hsplit, htake]
  unfold occCount
  rw [List.filter_append, List.filter_cons, if_pos (by simp [hc])]
  rw [List.length_append, List.length_cons]
  omega

/-- Claim C3 counterexample: for the heading-text sequence
`"foo"`, `"foo"`, `"foo 1"` under the github dialect, the second and third
anchors coincide (`foo-1` twice): the anchors of one build are not
pairwise distinct for every input sequence. -/
theorem C3_counterexample :
    anchorSeq "github" ["foo".data, "foo".data, "foo 1".data] =
      [some ("foo".data), some ("foo-1".data), some ("foo-1".data)] ∧
    ¬ List.Pairwise (fun a b => a ≠ b)
        (anchorSeq "github" ["foo".data, "foo".data, "foo 1".data]) := by
  constructor
  · decide
  · decide

/-- Claim C3 as amended: within a single build, any two headings whose
candidate slugs coincide receive distinct anchor strings under the
github/cmark or gitlab dialect; anchors of headings with different
candidate slugs may coincide (as `"foo"`, `"foo"`, `"foo 1"` shows). -/
theorem C3_amended (prsr : String)
    (hp : prsr = "github" ∨ prsr = "cmark" ∨ prsr = "gitlab")
    (texts : List (List Char)) (i j : Nat) (hij : i < j)
    (ti tj : List Char) (hti : texts.get? i = some ti)
    (htj : texts.get? j = some tj)
    (hslug : slugOf prsr ti = slugOf prsr tj)
    (a b : Option (List Char))
    (ha : (anchorSeq prsr texts).get? i = some a)
    (hb : (anchorSeq prsr texts).get? j = some b) :
    a ≠ b := by
  have hzero : ∀ c : List Char, (lookupA ([] : Counter) c).getD 0 = 0 :=
    fun _ => rfl
  have hi := anchorSeqAux_get prsr hp texts [] (fun _ => 0) hzero i ti hti
  have hj := anchorSeqAux_get prsr hp texts [] (fun _ => 0) hzero j tj htj
  unfold anchorSeq at ha hb
  rw [hi] at ha
  rw [hj] at hb
  have haa : a = some (render (slugOf prsr ti)
      (0 + occCount prsr (texts.take i) (slugOf prsr ti))) := by
    injection ha with h
    exact h.symm
  have hbb : b = some (render (slugOf prsr tj)
      (0 + occCount prsr (texts.take j) (slugOf prsr tj))) := by
    injection hb with h
    exact h.symm
  rw [haa, hbb, hslug]
  intro he
  injection he with he2
  have hlt := occCount_take_lt prsr texts i j hij ti hti (slugOf prsr tj) hslug
  exact render_injective_on_count (slugOf prsr tj) _ _ (by omega) he2

/-- Claim C3 amended, witness: duplicate texts `"Hi"`, `"Hi"` under the
gitlab dialect share the candidate slug `hi` and receive the distinct
anchors at positions 0 and 1. -/
theorem C3_witness :
    some ("hi".data) ≠ some ("hi-1".data) :=
  C3_amended "gitlab" (Or.inr (Or.inr rfl)) ["Hi".data, "Hi".data] 0 1
    (by decide) ("Hi".data) ("Hi".data) (by decide) (by decide) (by decide)
    (some ("hi".data)) (some ("hi-1".data)) (by decide) (by decide)

theorem anchorSeqAux_redcarpet (texts : List (List Char)) :
    ∀ cnt : Counter,
      anchorSeqAux "redcarpet" texts cnt =
        texts.map (fun t => some (redcarpetSlug t)) := by
  induction texts with
  | nil => intro cnt; rfl
  | cons t ts ih =>
      intro cnt
      have hstep : buildAnchorLink "redcarpet" t cnt = (some (redcarpetSlug t), cnt) := rfl
      simp [anchorSeqAux, hstep, ih cnt]

/-- Claim C7: within one build, for any sequence of heading texts whose
candidate slugs all equal `c`, the duplicate-tracking dialects
(github/cmark/gitlab) return the unsuffixed candidate for the first
occurrence and `c-(n-1)` for the n-th occurrence (1-indexed, n ≥ 2); the
redcarpet dialect never suffixes, returning each text's slug as is. -/
theorem C7_duplicates :
    (∀ prsr : String, (prsr = "github" ∨ prsr = "cmark" ∨ prsr = "gitlab") →
      ∀ (texts : List (List Char)) (c : List Char),
        (∀ t ∈ texts, slugOf prsr t = c) →
        anchorSeq prsr texts =
          (List.range texts.length).map (fun n => some (render c n))) ∧
    ∀ texts : List (List Char),
      anchorSeq "redcarpet" texts = texts.map (fun t => some (redcarpetSlug t)) := by
  constructor
  · intro prsr hp texts c hall
    apply List.ext_get?
    intro n
    by_cases hn : n < texts.length
    · have ht : texts.get? n = some (texts.get ⟨n, hn⟩) := List.get?_eq_get hn
      have hmem : texts.get ⟨n, hn⟩ ∈ texts := texts.get_mem _ _
      have hs : slugOf prsr (texts.get ⟨n, hn⟩) = c := hall _ hmem
      have hrun := anchorSeqAux_get prsr hp texts [] (fun _ => 0) (fun _ => rfl)
        n (texts.get ⟨n, hn⟩) ht
      unfold anchorSeq
      rw [hrun, hs]
      have hocc : occCount prsr (texts.take n) c = n := by
        unfold occCount
        rw [List.filter_eq_self.mpr, List.length_take]
        · omega
        · intro t htm
          simp [hall t (List.take_subset n texts htm)]
      rw [hocc, List.get?_map, List.get?_range hn]
      simp
    · rw [List.get?_eq_none.mpr, List.get?_eq_none.mpr]
      · simp
        omega
      · rw [anchorSeq, anchorSeqAux_length]
        omega
  · intro texts
    exact anchorSeqAux_redcarpet texts []

/-- Claim C7, witness: two occurrences of `"Hi"` under gitlab yield
`hi` then `hi-1`. -/
theorem C7_witness :
    anchorSeq "gitlab" ["Hi".data, "Hi".data] =
      (List.range 2).map (fun n => some (render ("hi".data) n)) :=
  C7_duplicates.1 "gitlab" (Or.inr (Or.inr rfl)) ["Hi".data, "Hi".data]
    ("hi".data) (by decide)

theorem takeWhile_replicate_append (c : Char) (a : Nat) (l : List Char)
    (hl : l.head? ≠ some c) :
    (List.replicate a c ++ l).takeWhile (fun x => x = c) = List.replicate a c := by
  induction a with
  | zero =>
      cases l with
      | nil => rfl
      | cons x xs =>
          have hx : ¬ x = c := by
            intro he
            exact hl (by rw [he]; rfl)
          simp [List.takeWhile_cons, hx]
  | succ a ih =>
      simp [List.replicate_succ, List.takeWhile_cons, ih]

/-- The indentation loop lands `min(run, 4)` past its start: it walks the
maximal space run but the `i <= 3` bound stops it at index 4. -/
theorem ghSpacesAux_spec (l : List Char) : ∀ i : Nat,
    ghSpacesAux l i = i + min ((l.takeWhile (fun x => x = ' ')).length) (4 - i) := by
  induction l with
  | nil => intro i; simp [ghSpacesAux]
  | cons c rest ih =>
      intro i
      by_cases hc : c = ' '
      · by_cases hi : i ≤ 3
        · rw [ghSpacesAux, if_pos (by simp [hc, hi]), ih (i + 1)]
          rw [List.takeWhile_cons, if_pos (by simp [hc]), List.length_cons]
          generalize (rest.takeWhile (fun x => x = ' ')).length = t
          omega
        · rw [ghSpacesAux, if_neg (by simp [hi])]
          rw [List.takeWhile_cons, if_pos (by simp [hc]), List.length_cons]
          generalize (rest.takeWhile (fun x => x = ' ')).length = t
          omega
      · rw [ghSpacesAux, if_neg (by simp [hc])]
        rw [List.takeWhile_cons, if_neg (by simp [hc])]
        simp

/-- The marker loop lands `min(run, 7)` past its start (`offset`): it walks
the maximal `'#'` run but the `i <= 6 + offset` bound stops it at
`offset + 7`. -/
theorem ghHashesAux_spec (off : Nat) (l : List Char) : ∀ i : Nat,
    ghHashesAux off l i =
      i + min ((l.takeWhile (fun x => x = '#')).length) (7 + off - i) := by
  induction l with
  | nil => intro i; simp [ghHashesAux]
  | cons c rest ih =>
      intro i
      by_cases hc : c = '#'
      · by_cases hi : i ≤ 6 + off
        · rw [ghHashesAux, if_pos (by simp [hc, hi]), ih (i + 1)]
          rw [List.takeWhile_cons, if_pos (by simp [hc]), List.length_cons]
          generalize (rest.takeWhile (fun x => x = '#')).length = t
          omega
        · rw [ghHashesAux, if_neg (by simp [hi])]
          rw [List.takeWhile_cons, if_pos (by simp [hc]), List.length_cons]
          generalize (rest.takeWhile (fun x => x = '#')).length = t
          omega
      · rw [ghHashesAux, if_neg (by simp [hc])]
        rw [List.takeWhile_cons, if_neg (by simp [hc])]
        simp

theorem ghNextCharCheck_some_bad (line : List Char) (cur i2 : Nat) (c : Char)
    (hg : line.get? i2 = some c) (h1 : c ≠ ' ') (h2 : c ≠ '\n') (h3 : c ≠ '\r') :
    ghNextCharCheck line cur i2 = none := by
  unfold ghNextCharCheck
  rw [hg]
  simp [h1, h2, h3]

theorem ghNextCharCheck_level (line : List Char) (cur i2 lvl : Nat) (t : List Char)
    (h : ghNextCharCheck line cur i2 = some (lvl, t)) : lvl = cur := by
  unfold ghNextCharCheck at h
  split at h
  · split at h
    · exact Option.noConfusion h
    · injection h with h1
      injection h1 with h2 h3
      omega
  · injection h with h1
    injection h1 with h2 h3
    omega

/-- Claim C6: under the github/cmark dialect, writing a line as
`spaces^a ++ '#'^b ++ rest` (maximal runs), the recognizer rejects more
than 3 leading spaces, a zero marker run, a marker run longer than
`min 6 k`, and a bad character right after the marker run; every accepted
line's level equals the marker count `b` and lies in `[1, min 6 k]`. -/
theorem C6_github (k a b : Nat) (rest line : List Char)
    (hline : line = List.replicate a ' ' ++ (List.replicate b '#' ++ rest))
    (hk : 0 < k) (nl : Bool)
    (hmax1 : rest.head? ≠ some '#')
    (hmax2 : b = 0 → rest.head? ≠ some ' ') :
    (3 < a → getAtxHeading k "github" nl line = .ok none) ∧
    (b = 0 → getAtxHeading k "github" nl line = .ok none) ∧
    (a ≤ 3 → min 6 k < b → getAtxHeading k "github" nl line = .ok none) ∧
    (a ≤ 3 → 1 ≤ b → b ≤ min 6 k →
      ∀ c, rest.head? = some c → c ≠ ' ' → c ≠ '\n' → c ≠ '\r' →
        getAtxHeading k "github" nl line = .ok none) ∧
    (∀ lvl text, getAtxHeading k "github" nl line = .ok (some (lvl, text)) →
      lvl = b ∧ 1 ≤ b ∧ b ≤ min 6 k) := by
  have hk0 : ¬ k = 0 := by omega
  -- the space run of the line is exactly `a`
  have hTWsp : (List.replicate a ' ' ++ (List.replicate b '#' ++ rest)).takeWhile
      (fun x => x = ' ') = List.replicate a ' ' := by
    apply takeWhile_replicate_append
    rcases Nat.eq_zero_or_pos b with hb | hb
    · subst hb
      simpa using hmax2 rfl
    · obtain ⟨b2, rfl⟩ : ∃ b2, b = b2 + 1 := ⟨b - 1, by omega⟩
      simp [List.replicate_succ]
  have hsp : ghSpacesAux line 0 = min a 4 := by
    rw [hline, ghSpacesAux_spec, hTWsp, List.length_replicate]
    omega
  -- dropping the spaces leaves the marker run and the rest
  have hdrop : line.drop a = List.replicate b '#' ++ rest := by
    rw [hline]
    have := List.drop_left (List.replicate a ' ') (List.replicate b '#' ++ rest)
    rwa [List.length_replicate] at this
  have hTWh : (List.replicate b '#' ++ rest).takeWhile (fun x => x = '#') =
      List.replicate b '#' :=
    takeWhile_replicate_append '#' b rest hmax1
  -- the character right after the markers is the head of `rest`
  have hget : line.get? (a + b) = rest.head? := by
    rw [hline, List.get?_append_right (by simp), List.length_replicate]
    rw [List.get?_append_right (by simp only [List.length_replicate]; omega),
      List.length_replicate]
    rw [show a + b - a - b = 0 from by omega]
    exact List.get?_zero rest
  -- the extraction below the indentation check, for `a ≤ 3`
  have main : line.head? ≠ some '\\' → a ≤ 3 →
      githubExtract k line =
        if min b 7 > 6 || min b 7 > k || min b 7 = 0 then none
        else ghNextCharCheck line (min b 7) (a + min b 7) := by
    intro hhead ha
    simp only [githubExtract]
    rw [if_neg hhead, hsp, show min a 4 = a from by omega]
    simp only [ghAfterIndent]
    rw [if_neg (by omega : ¬ a > 3)]
    have hh : ghHashesAux a (line.drop a) a = a + min b 7 := by
      rw [hdrop, ghHashesAux_spec, hTWh, List.length_replicate]
      omega
    rw [hh, show a + min b 7 - a = min b 7 from by omega]
  -- rejection via the indentation ceiling, for `3 < a`
  have extract1 : line.head? ≠ some '\\' → 3 < a → githubExtract k line = none := by
    intro hhead h3
    simp only [githubExtract]
    rw [if_neg hhead, hsp]
    simp only [ghAfterIndent]
    rw [if_pos (by omega : min a 4 > 3)]
  have atxnone : githubExtract k line = none → line ≠ [] →
      getAtxHeading k "github" nl line = .ok none := by
    intro hx hne
    rw [getAtx_github_eq k nl line hk0 hne, hx]
  have atxnil : line = [] → getAtxHeading k "github" nl line = .ok none := by
    intro hnil
    unfold getAtxHeading
    rw [if_neg hk0, if_pos hnil]
  have atxbs : line.head? = some '\\' → line ≠ [] →
      getAtxHeading k "github" nl line = .ok none := by
    intro hbs hne
    apply atxnone _ hne
    simp only [githubExtract]
    rw [if_pos hbs]
  refine ⟨?_, ?_, ?_, ?_, ?_⟩
  · -- more than 3 leading spaces
    intro h3
    obtain ⟨a2, ha2⟩ : ∃ a2, a = a2 + 1 := ⟨a - 1, by omega⟩
    have hhead : line.head? = some ' ' := by
      rw [hline, ha2]
      simp [List.replicate_succ]
    have hne : line ≠ [] := by
      intro hc
      rw [hc] at hhead
      exact Option.noConfusion hhead
    exact atxnone (extract1 (by rw [hhead]; decide) h3) hne
  · -- zero markers
    intro hb0
    by_cases hnil : line = []
    · exact atxnil hnil
    by_cases hbs : line.head? = some '\\'
    · exact atxbs hbs hnil
    by_cases ha3 : a ≤ 3
    · apply atxnone _ hnil
      rw [main hbs ha3, hb0]
      rw [if_pos (by simp)]
    · exact atxnone (extract1 hbs (by omega)) hnil
  · -- marker run longer than min 6 k
    intro ha hb
    by_cases hnil : line = []
    · exact atxnil hnil
    by_cases hbs : line.head? = some '\\'
    · exact atxbs hbs hnil
    apply atxnone _ hnil
    rw [main hbs ha]
    rw [if_pos]
    simp only [Bool.or_eq_true, decide_eq_true_eq]
    omega
  · -- bad character right after the markers
    intro ha hb1 hb2 c hc hc1 hc2 hc3
    by_cases hnil : line = []
    · exact atxnil hnil
    by_cases hbs : line.head? = some '\\'
    · exact atxbs hbs hnil
    apply atxnone _ hnil
    rw [main hbs ha]
    rw [if_neg (by simp only [Bool.or_eq_true, decide_eq_true_eq]; omega)]
    rw [show min b 7 = b from by omega]
    exact ghNextCharCheck_some_bad line b (a + b) c (by rw [hget, hc]) hc1 hc2 hc3
  · -- acceptance: the level is the marker count, within bounds
    intro lvl text hres
    by_cases hnil : line = []
    · rw [atxnil hnil] at hres
      exact Option.noConfusion (Except.ok.inj hres)
    by_cases hbs : line.head? = some '\\'
    · rw [atxbs hbs hnil] at hres
      exact Option.noConfusion (Except.ok.inj hres)
    by_cases ha3 : a ≤ 3
    · rw [getAtx_github_eq k nl line hk0 hnil, main hbs ha3] at hres
      by_cases hcond : (min b 7 > 6 || min b 7 > k || min b 7 = 0) = true
      · rw [if_pos hcond] at hres
        exact Option.noConfusion (Except.ok.inj hres)
      · rw [if_neg hcond] at hres
        simp only [Bool.or_eq_true, decide_eq_true_eq] at hcond
        have hb6 : b ≤ 6 := by omega
        have hbk : b ≤ k := by omega
        have hb1 : 1 ≤ b := by omega
        rcases hncc : ghNextCharCheck line (min b 7) (a + min b 7) with _ | p
        · rw [hncc] at hres
          exact Option.noConfusion (Except.ok.inj hres)
        · obtain ⟨cur, t0⟩ := p
          have hcur : cur = min b 7 := ghNextCharCheck_level line _ _ _ _ hncc
          rw [hncc] at hres
          have hlvl : lvl = cur := by
            cases nl with
            | true =>
                simp only [if_pos rfl] at hres
                have h1 := Except.ok.inj hres
                have h2 := Option.some.inj h1
                exact (congrArg Prod.fst h2).symm
            | false =>
                simp only [Bool.false_eq_true, if_false] at hres
                rcases hll : githubLinkLabel t0 with e | fl2
                · rw [hll] at hres
                  exact Except.noConfusion hres
                · rw [hll] at hres
                  have h1 := Except.ok.inj hres
                  have h2 := Option.some.inj h1
                  exact (congrArg Prod.fst h2).symm
          refine ⟨?_, hb1, ?_⟩
          · rw [hlvl, hcur]
            omega
          · omega
    · rw [atxnone (extract1 hbs (by omega)) hnil] at hres
      exact Option.noConfusion (Except.ok.inj hres)

/-- Claim C6, witness: `"#### x\n"` (a=0, b=4, keep_header_levels=3) is
rejected under github rules since 4 > min 6 3. -/
theorem C6_witness :
    getAtxHeading 3 "github" false
      (List.replicate 0 ' ' ++ (List.replicate 4 '#' ++ (' ' :: "x\n".data))) =
      .ok none :=
  ((C6_github 3 0 4 (' ' :: "x\n".data)
      (List.replicate 0 ' ' ++ (List.replicate 4 '#' ++ (' ' :: "x\n".data)))
      rfl (by decide) false (by decide) (by decide)).2.2.1)
    (by decide) (by decide)

/-- Claim C9 amended, witness: the iff instantiated at the heading line
`"# hi\n"` (trimmed text `"hi"`, no overflow). -/
theorem C9_witness :
    (getAtxHeading 3 "github" false ("# hi\n".data) =
        .error .githubOverflowCharsLinkLabel ↔
      (stripAll (if ("hi".data).getLast? = some '\\' then "hi".data ++ [' ']
          else "hi".data) ≠ [] ∧
        999 < (if ("hi".data).getLast? = some '\\' then "hi".data ++ [' ']
          else "hi".data).length)) :=
  C9_amended 3 ("# hi\n".data) 1 ("hi".data) (by decide) (by decide)

end MdToc
